import Mathlib

/-!
Verification of the SQLiteExplorer core algorithms (sqliteexplorer.py).

This file gives a shallow embedding of the pure computational content of the
program: the table formatter (`TableFormatter.format_table`,
`TableFormatter.format_markdown`, `TableFormatter.format_csv_str`), the
catalog model and schema diff (`SQLiteExplorer.diff`), the column statistics
(`SQLiteExplorer.get_stats`), the cross-table search (`SQLiteExplorer.search`),
the size analysis (`SQLiteExplorer.get_size`) and the not-found error paths of
`get_schema` / `browse` / `export_table` / `get_stats`.

Modelling conventions:
* SQLite cell values are modelled by the closed variant `PyVal`
  (None / int / float / text / blob), mirroring the dynamic typing of the
  `sqlite3` driver.  Python floats are modelled as exact rationals; the
  `"%.6g"` / `"%.1f"` printf conversions are modelled by exact decimal
  rounding (round half to even), which coincides with the binary behaviour on
  every value exercised here.
* Python `str.lower()` / `str.upper()` and SQL `LIKE` case folding are
  modelled on ASCII (`Char.toLower` / `Char.toUpper`), which is exact for the
  ASCII strings the code manipulates.
* A database file is modelled as the list of its catalog tables
  (`Table`: name, columns with declared types, reported row count, rows).
  Engine faults of best-effort sub-operations (a failing sample query in
  `get_size`, a failing per-table scan in `search`, a failing aggregate query
  in `get_stats`) are modelled by explicit failure inputs, since whether the
  engine faults is not a function of the pure data.
-/

/-! ## Character and string utilities

The Lean core `String` functions implemented by well-founded recursion
(`String.replace`, `String.startsWith`, ...) are re-implemented here by
structural recursion on the character list, so that every definition can be
evaluated by `decide`. -/

/-- Lexicographic comparison of character lists by code point; this is the
order Python `sorted` and SQLite `ORDER BY name` (BINARY collation) use on
the ASCII table names involved. -/
def charLe : List Char → List Char → Bool
  | [], _ => true
  | _ :: _, [] => false
  | a :: as, b :: bs =>
    if a.toNat < b.toNat then true
    else if b.toNat < a.toNat then false
    else charLe as bs

/-- String comparison by code points (Python `<=` on `str`). -/
def nameLe (a b : String) : Prop := charLe a.toList b.toList = true

instance : DecidableRel nameLe := fun a b => instDecidableEqBool _ _

/-- Insertion into a sorted list, used to model `sorted(...)` / `ORDER BY`. -/
def insertLe (le : α → α → Bool) (x : α) : List α → List α
  | [] => [x]
  | y :: ys => if le x y then x :: y :: ys else y :: insertLe le x ys

/-- Python `sorted` on strings, modelled as insertion sort over `nameLe`. -/
def sortNames (l : List String) : List String := l.insertionSort nameLe

/-- Containment of one character list in another (Python `in` on `str`,
and the `%term%` `LIKE` pattern). -/
def hasSub (needle : List Char) : List Char → Bool
  | [] => needle.isEmpty
  | c :: t => needle.isPrefixOf (c :: t) || hasSub needle t

/-- ASCII lower-casing of a string (models Python `str.lower()`). -/
def asciiLower (s : String) : String := ⟨s.toList.map Char.toLower⟩

/-- ASCII upper-casing of a string (models Python `str.upper()`). -/
def asciiUpper (s : String) : String := ⟨s.toList.map Char.toUpper⟩

/-- Case-insensitive containment check: does `hay` contain `term`
(Python `term.lower() in hay.lower()`)? -/
def containsCI (term hay : String) : Bool :=
  hasSub (asciiLower term).toList (asciiLower hay).toList

/-- Replacement of a single character by a string
(models Python `str.replace` for a one-character needle). -/
def replaceChar (c : Char) (repl : List Char) : List Char → List Char
  | [] => []
  | d :: t => if d = c then repl ++ replaceChar c repl t else d :: replaceChar c repl t

/-- Prefix test on strings (models Python `str.startswith`). -/
def strStarts (s pre : String) : Bool := pre.toList.isPrefixOf s.toList

/-! ## Decimal rendering helpers (printf models) -/

/-- Rounding of a rational to the nearest integer, ties to even — the rounding
performed by C `printf` (and hence Python `%`-formatting) on exactly
representable values. -/
def rndHE (q : ℚ) : ℤ :=
  let f := q.floor
  if q < (f : ℚ) + 1 / 2 then f
  else if ((f : ℚ) + 1 / 2) < q then f + 1
  else if f % 2 = 0 then f else f + 1

/-- Round-half-even of the fraction `a / b` (with `b > 0`), computed on
integers so that it kernel-evaluates. -/
def rndHEdiv (a b : ℤ) : ℤ :=
  let f := a / b
  let r := a - f * b
  if 2 * r < b then f
  else if b < 2 * r then f + 1
  else if f % 2 = 0 then f else f + 1

/-- Model of Python `"%.1f" % q` on an exact rational value. -/
def pyFmt1 (q : ℚ) : String :=
  let t := rndHE (q * 10)
  (if t < 0 then "-" else "") ++ toString (t.natAbs / 10) ++ "." ++ toString (t.natAbs % 10)

/-- Fuel-bounded base-10 logarithm on naturals (structural recursion so that
it kernel-evaluates; `natLog10 n` is `⌊log₁₀ n⌋` for `n ≥ 1`). -/
def log10Aux : Nat → Nat → Nat
  | 0, _ => 0
  | fuel + 1, n => if n < 10 then 0 else log10Aux fuel (n / 10) + 1

/-- Base-10 logarithm, `natLog10 n = ⌊log₁₀ n⌋` for `n ≥ 1`. -/
def natLog10 (n : Nat) : Nat := log10Aux n n

/-- The ten decimal digit characters. -/
def digChars : List Char := ['0', '1', '2', '3', '4', '5', '6', '7', '8', '9']

/-- The decimal digit character for `n % 10`. -/
def digChar (n : Nat) : Char := digChars.getD (n % 10) '0'

/-- Decimal digit test used when counting significant digits. -/
def isDig (c : Char) : Bool := digChars.contains c

/-- The six decimal digits of a six-digit mantissa `m` (most significant
first). -/
def digits6 (m : ℤ) : List Char :=
  (List.range 6).map (fun j => digChar (m.toNat / 10 ^ (5 - j) % 10))

/-- Removal of trailing `'0'` characters (the `%g` conversion strips trailing
zeros of the fractional part). -/
def stripT (l : List Char) : List Char := (l.reverse.dropWhile (fun c => c = '0')).reverse

/-- Two-digit-minimum rendering of a `%g` exponent (`e+05`, `e-07`, ...). -/
def expChars (e : ℤ) : List Char :=
  (if e < 0 then ['-'] else ['+']) ++
    (if e.natAbs < 10 then '0' :: (toString e.natAbs).toList else (toString e.natAbs).toList)

/-- Final assembly of the `%.6g` rendering from the sign, the six-digit
mantissa `m` (`10^5 ≤ m < 10^6`) and the decimal exponent `e` of the value:
exponent form outside `[1e-4, 1e6)`, otherwise fixed-point with trailing
fractional zeros stripped. -/
def renderG6 (sign : List Char) (m e : ℤ) : List Char :=
  let ds := digits6 m
  if e < -4 ∨ 6 ≤ e then
    let tail := stripT (ds.drop 1)
    sign ++ ds.take 1 ++ (if tail.isEmpty then [] else '.' :: tail) ++ 'e' :: expChars e
  else if 0 ≤ e then
    let ip := ds.take (e.toNat + 1)
    let fr := stripT (ds.drop (e.toNat + 1))
    sign ++ ip ++ (if fr.isEmpty then [] else '.' :: fr)
  else
    let zs := List.replicate (e.natAbs - 1) '0'
    let fr := stripT ds
    sign ++ '0' :: '.' :: (zs ++ fr)

/-- Model of Python `"%.6g" % q` on an exact rational: round to six
significant digits, strip trailing fractional zeros, use exponent form
outside `[1e-4, 1e6)`.  Computed from the numerator/denominator with integer
arithmetic only, so that it kernel-evaluates. -/
def pyG6chars (q : ℚ) : List Char :=
  if q.num = 0 then ['0']
  else
    let sign : List Char := if q.num < 0 then ['-'] else []
    let n : ℤ := (q.num.natAbs : ℤ)
    let d : ℤ := (q.den : ℤ)
    let e0 : ℤ :=
      if d ≤ n then (natLog10 (n.toNat / d.toNat) : ℤ)
      else -((natLog10 ((d.toNat + n.toNat - 1) / n.toNat - 1) : ℤ) + 1)
    let m0 : ℤ :=
      if 0 ≤ 5 - e0 then rndHEdiv (n * 10 ^ (5 - e0).toNat) d
      else rndHEdiv n (d * 10 ^ (e0 - 5).toNat)
    let m : ℤ := if 10 ^ 6 ≤ m0 then m0 / 10 else m0
    let e : ℤ := if 10 ^ 6 ≤ m0 then e0 + 1 else e0
    renderG6 sign m e

/-- String form of the `%.6g` model. -/
def pyG6 (q : ℚ) : String := ⟨pyG6chars q⟩

/-- Count of significant digits in a rendered number: decimal digits of the
mantissa part (before any exponent marker), not counting leading zeros. -/
def sigDigitCount (s : String) : Nat :=
  (((s.toList.takeWhile (fun c => !(c = 'e'))).filter isDig).dropWhile (fun c => c = '0')).length

/-! ## Cell values (`PyVal`)

`sqlite3` hands the program dynamically typed scalars; the formatter
dispatches on `None` / `bytes` / `float` / everything else. -/

/-- A SQLite cell value as seen through the `sqlite3` driver. -/
inductive PyVal where
  | none
  | int (i : ℤ)
  | float (q : ℚ)
  | str (s : String)
  | blob (bs : List Nat)
deriving DecidableEq

/-- Simplified model of Python `repr`/`str` of a `bytes` object (exact only
for printable ASCII payloads; no claim depends on the non-ASCII case). -/
def pyBytesRepr (bs : List Nat) : String :=
  "b'" ++ (⟨bs.map (fun b => if 32 ≤ b ∧ b < 127 then Char.ofNat b else '?')⟩ : String) ++ "'"

/-- Model of Python `str(v)` on a cell value.  The float branch is modelled
with the `%.6g` rendering (Python `str` uses shortest-round-trip digits; no
claim evaluates `str` on a float). -/
def pyStr : PyVal → String
  | PyVal.none => "None"
  | PyVal.int i => toString i
  | PyVal.float q => pyG6 q
  | PyVal.str s => s
  | PyVal.blob bs => pyBytesRepr bs

/-! ## `TableFormatter.format_table` (sqliteexplorer.py lines 43-141) -/

/-- Newline escaping applied in the text view (lines 83-84):
`s.replace("\n", "\\n").replace("\r", "\\r")`. -/
def escapeNl (s : String) : String :=
  ⟨replaceChar '\r' ['\\', 'r'] (replaceChar '\n' ['\\', 'n'] s.toList)⟩

/-- Per-value stringification of `format_table` (lines 74-85): `None` becomes
`NULL`, `bytes` becomes a `<BLOB n bytes>` placeholder, floats are rendered
with `"%.6g"`, everything else is `str(val)` with newlines escaped. -/
def stringifyCell : PyVal → String
  | PyVal.none => "NULL"
  | PyVal.blob bs => "<BLOB " ++ toString bs.length ++ " bytes>"
  | PyVal.float q => pyG6 q
  | PyVal.int i => escapeNl (toString i)
  | PyVal.str s => escapeNl s

/-- One pass of the width loop (lines 90-93): for each cell of the row with
an index below the current width-list length, bump that width to the cell's
length.  Extra cells of an over-long row are ignored; widths with no
corresponding cell are unchanged. -/
def bumpWidths : List Nat → List String → List Nat
  | [], _ => []
  | w :: ws, [] => w :: ws
  | w :: ws, v :: vs => max w v.length :: bumpWidths ws vs

/-- Raw column widths (lines 89-93): header lengths bumped by every
stringified cell. -/
def rawColWidths (headers : List String) (rows : List (List String)) : List Nat :=
  rows.foldl bumpWidths (headers.map (fun h => h.length))

/-- Width cap (line 96): `col_widths = [min(w, max_width) for w in col_widths]`. -/
def capWidths (max_width : Nat) (ws : List Nat) : List Nat :=
  ws.map (fun w => min w max_width)

/-- Python slice `s[:k]` for a possibly negative bound `k`. -/
def pySliceTo (s : String) (k : ℤ) : String :=
  if 0 ≤ k then ⟨s.toList.take k.toNat⟩
  else ⟨s.toList.take (s.toList.length - (-k).toNat)⟩

/-- The `truncate` helper of `format_table` (lines 99-102): values longer
than the column width are cut to `width-3` characters plus `"..."`. -/
def pyTruncate (s : String) (width : Nat) : String :=
  if s.length ≤ width then s else pySliceTo s ((width : ℤ) - 3) ++ "..."

/-- Python `str.ljust`. -/
def ljust (s : String) (w : Nat) : String := s ++ ⟨List.replicate (w - s.length) ' '⟩

/-- Python `str.rjust`. -/
def rjust (s : String) (w : Nat) : String := (⟨List.replicate (w - s.length) ' '⟩ : String) ++ s

/-- Strip of leading/trailing Python whitespace. -/
def stripWs (l : List Char) : List Char :=
  ((l.dropWhile (fun c => c.isWhitespace)).reverse.dropWhile (fun c => c.isWhitespace)).reverse

/-- Split of a character list at the first `e`/`E` (exponent marker). -/
def splitAtE : List Char → List Char × Option (List Char)
  | [] => ([], Option.none)
  | c :: r =>
    if c = 'e' ∨ c = 'E' then ([], some r)
    else
      let p := splitAtE r
      (c :: p.1, p.2)

/-- Acceptance test of a float mantissa: `digits`, `digits.`, `digits.digits`
or `.digits`. -/
def mantissaOk (l : List Char) : Bool :=
  let ip := l.takeWhile isDig
  match l.drop ip.length with
  | [] => !ip.isEmpty
  | '.' :: fr => (!ip.isEmpty || !fr.isEmpty) && fr.all isDig
  | _ => false

/-- Acceptance test of a float exponent: optional sign then one or more
digits. -/
def expOk (l : List Char) : Bool :=
  let t := match l with
    | '+' :: r => r
    | '-' :: r => r
    | r => r
  !t.isEmpty && t.all isDig

/-- Model of whether Python `float(s)` succeeds (used by the per-cell
alignment heuristic of lines 126-131).  Underscore separators and non-ASCII
digits are not modelled; no claim depends on them. -/
def pyFloatParsable (s : String) : Bool :=
  let t := stripWs s.toList
  let t := match t with
    | '+' :: r => r
    | '-' :: r => r
    | r => r
  let low := t.map Char.toLower
  if low = "inf".toList ∨ low = "infinity".toList ∨ low = "nan".toList then true
  else
    let p := splitAtE t
    mantissaOk p.1 &&
      (match p.2 with
       | Option.none => true
       | some ex => expOk ex)

/-- One rendered cell of a data row (lines 122-131): the value (or `""` past
the row's end) truncated to the column width, right-aligned when the
original pre-truncation string parses as a float (an absent cell is probed
as `"x"`, which does not parse), left-aligned otherwise. -/
def renderCell (row : List String) (i : Nat) (w : Nat) : String :=
  let val := (row.get? i).getD ""
  let t := pyTruncate val w
  if pyFloatParsable ((row.get? i).getD "x") then rjust t w else ljust t w

/-- One rendered data line of the text table. -/
def renderRow (ws : List Nat) (row : List String) : String :=
  "| " ++ String.intercalate " | " (ws.mapIdx (fun i w => renderCell row i w)) ++ " |"

/-- Model of `TableFormatter.format_table` (lines 43-141). -/
def format_table (headers : List String) (rows : List (List PyVal))
    (max_width : Nat) (title : Option String) : String :=
  if headers.isEmpty then "(no columns)"
  else
    let str_rows := rows.map (fun r => r.map stringifyCell)
    let ws := capWidths max_width (rawColWidths headers str_rows)
    let sep := "+-" ++ String.intercalate "-+-" (ws.map (fun w => (⟨List.replicate w '-'⟩ : String))) ++ "-+"
    let header_line := "| " ++ String.intercalate " | "
      ((headers.zip ws).map (fun p => ljust (pyTruncate p.1 p.2) p.2)) ++ " |"
    let body := str_rows.map (renderRow ws)
    let footer :=
      if str_rows.isEmpty then "(0 rows)"
      else "(" ++ toString str_rows.length ++ " row" ++
        (if str_rows.length ≠ 1 then "s" else "") ++ ")"
    let titleLines := match title with
      | some t => ["", t]
      | Option.none => []
    String.intercalate "\n" (titleLines ++ [sep, header_line, sep] ++ body ++ [sep, footer])

/-! ## `TableFormatter.format_markdown` (lines 194-233)

The function stringifies every row into a *fresh* list (`str_row = []` at
line 213, filled by `str_row.append`), collects the copies in `str_rows`, and
the padding loop at lines 227-231 (`while len(row) < len(str_headers):
row.append("")`) appends to those copies.  The caller-supplied `rows` lists
are never written to, so the model returns them unchanged as the second
component. -/

/-- Per-value stringification of `format_markdown` (lines 213-221). -/
def mdCell : PyVal → String
  | PyVal.none => "NULL"
  | PyVal.blob bs => "`<BLOB " ++ toString bs.length ++ " bytes>`"
  | v => ⟨replaceChar '|' ['\\', '|'] (pyStr v).toList⟩

/-- The fresh stringified row lists (`str_rows`, lines 211-222). -/
def mdStringify (rows : List (List PyVal)) : List (List String) :=
  rows.map (fun row => row.map mdCell)

/-- The padding loop body (lines 228-230): a copied row shorter than the
header list is extended with empty cells up to the header count. -/
def mdPad (hlen : Nat) (r : List String) : List String :=
  r ++ List.replicate (hlen - r.length) ""

/-- Model of `TableFormatter.format_markdown` (lines 194-233).  Returns the
rendered Markdown together with the caller-visible `rows` argument after the
call. -/
def format_markdown (headers : List String) (rows : List (List PyVal)) :
    String × List (List PyVal) :=
  if headers.isEmpty then ("(no columns)", rows)
  else
    let str_rows := mdStringify rows
    let lines :=
      ("| " ++ String.intercalate " | " headers ++ " |") ::
      ("| " ++ String.intercalate " | " (headers.map (fun _ => "---")) ++ " |") ::
      str_rows.map (fun r => "| " ++ String.intercalate " | " (mdPad headers.length r) ++ " |")
    (String.intercalate "\n" lines, rows)

/-! ## `TableFormatter.format_csv_str` (lines 167-192) -/

/-- RFC-4180-style quoting performed by Python's `csv.writer`. -/
def csvQuote (s : String) : String :=
  if s.toList.any (fun c => c = ',' ∨ c = '"' ∨ c = '\n' ∨ c = '\r') then
    "\"" ++ (⟨replaceChar '"' ['"', '"'] s.toList⟩ : String) ++ "\""
  else s

/-- Per-value CSV stringification (lines 184-190): `None` becomes the empty
string, `bytes` the blob placeholder, everything else `str(val)`. -/
def csvCell : PyVal → String
  | PyVal.none => ""
  | PyVal.blob bs => "<BLOB " ++ toString bs.length ++ " bytes>"
  | v => pyStr v

/-- Model of `TableFormatter.format_csv_str` (lines 167-192); `csv.writer`
terminates every record with CRLF. -/
def format_csv_str (headers : List String) (rows : List (List PyVal)) : String :=
  String.intercalate "\r\n"
    (String.intercalate "," (headers.map csvQuote) ::
      rows.map (fun r => String.intercalate "," ((r.map csvCell).map csvQuote))) ++ "\r\n"

/-! ## Catalog model

A database file is modelled by the list of rows of its `sqlite_master`
catalog restricted to `type='table'`: each entry carries the table name, the
`PRAGMA table_info` columns (name and raw declared type), the row count as
reported by `get_tables` (`-1` when the engine's `COUNT(*)` fails, line 429)
and the table's data rows. -/

/-- A column as reported by `PRAGMA table_info`: name and raw declared type
(the empty string when the column has no declared type). -/
structure Column where
  name : String
  type : String
deriving DecidableEq

/-- A catalog table. -/
structure Table where
  name : String
  columns : List Column
  row_count : ℤ
  rows : List (List PyVal)
deriving DecidableEq

/-- Type normalisation of `get_schema` (line 493): an absent declared type is
reported as `ANY`. -/
def normType (t : String) : String := if t = "" then "ANY" else t

/-- Name order on catalog tables (SQL `ORDER BY name`). -/
def tblLe (a b : Table) : Prop := nameLe a.name b.name

instance : DecidableRel tblLe := fun a b => instDecidableEqBool _ _

/-- Model of `SQLiteExplorer.get_tables` (lines 406-442): the user tables
(names not starting with `sqlite_`), sorted by name. -/
def getTables (db : List Table) : List Table :=
  (db.filter (fun t => !(strStarts t.name "sqlite_"))).insertionSort tblLe

/-- Columns of a named table as `get_schema` reports them (lines 487-497):
the `PRAGMA table_info` columns with their declared types normalised. -/
def schemaCols (db : List Table) (n : String) : List Column :=
  match db.find? (fun t => t.name = n) with
  | some t => t.columns.map (fun c => ⟨c.name, normType c.type⟩)
  | Option.none => []

/-- Row count of a named table as recorded by the `get_tables` dictionary
(`my_tables[tbl]["row_count"]`, line 1040). -/
def tblRowCount (db : List Table) (n : String) : ℤ :=
  match (getTables db).find? (fun t => t.name = n) with
  | some t => t.row_count
  | Option.none => 0

/-! ## `SQLiteExplorer.diff` (lines 1001-1069) -/

/-- A per-column declared-type mismatch (lines 1034-1038). -/
structure TypeDiff where
  column : String
  type_a : String
  type_b : String
deriving DecidableEq

/-- A per-table difference entry (lines 1043-1051). -/
structure TableDiff where
  table : String
  columns_only_in_a : List String
  columns_only_in_b : List String
  type_differences : List TypeDiff
  row_count_a : ℤ
  row_count_b : ℤ
  row_diff : ℤ
deriving DecidableEq

/-- The result of `diff` (lines 1059-1067), restricted to its pure fields. -/
structure DiffResult where
  identical_schema : Bool
  tables_only_in_a : List String
  tables_only_in_b : List String
  common_tables : Nat
  table_differences : List TableDiff
deriving DecidableEq

/-- `sorted(set(a) - set(b))` on name lists. -/
def sortedDiffNames (a b : List String) : List String :=
  sortNames ((a.filter (fun n => !(b.contains n))).dedup)

/-- `sorted(set(a) & set(b))` on name lists. -/
def sortedInterNames (a b : List String) : List String :=
  sortNames ((a.filter (fun n => b.contains n)).dedup)

/-- Declared type of a named column within a column list (the
`my_cols[col]["type"]` lookup of lines 1025-1033). -/
def colTypeAt (cols : List Column) (c : String) : String :=
  match cols.find? (fun x => x.name = c) with
  | some x => x.type
  | Option.none => ""

/-- The per-common-table comparison of `diff` (lines 1021-1051): column-name
set differences, verbatim declared-type comparison on the common columns,
and the signed row-count delta; an entry is produced only when at least one
of them is non-trivial (line 1042). -/
def diffTable (tbl : String) (aCols bCols : List Column) (rcA rcB : ℤ) : Option TableDiff :=
  let aNames := aCols.map (fun c => c.name)
  let bNames := bCols.map (fun c => c.name)
  let onlyA := sortedDiffNames aNames bNames
  let onlyB := sortedDiffNames bNames aNames
  let tds := (sortedInterNames aNames bNames).filterMap (fun c =>
    if colTypeAt aCols c ≠ colTypeAt bCols c then some ⟨c, colTypeAt aCols c, colTypeAt bCols c⟩
    else Option.none)
  let rd := rcA - rcB
  if !onlyA.isEmpty || !onlyB.isEmpty || !tds.isEmpty || rd ≠ 0 then
    some ⟨tbl, onlyA, onlyB, tds, rcA, rcB, rd⟩
  else Option.none

/-- Model of `SQLiteExplorer.diff` (lines 1001-1069). -/
def diff (a b : List Table) : DiffResult :=
  let aNames := (getTables a).map (fun t => t.name)
  let bNames := (getTables b).map (fun t => t.name)
  let onlyA := sortedDiffNames aNames bNames
  let onlyB := sortedDiffNames bNames aNames
  let common := sortedInterNames aNames bNames
  let tdiffs := common.filterMap (fun tbl =>
    diffTable tbl (schemaCols a tbl) (schemaCols b tbl) (tblRowCount a tbl) (tblRowCount b tbl))
  { identical_schema := onlyA.isEmpty && onlyB.isEmpty && tdiffs.isEmpty
    tables_only_in_a := onlyA
    tables_only_in_b := onlyB
    common_tables := common.length
    table_differences := tdiffs }

/-! ## Not-found error paths (`get_schema` lines 464-476, `browse` lines
572-582, `export_table` lines 684-696, `get_stats` lines 749-759) -/

/-- The not-found error message: it names the missing table and enumerates
the available user tables (the `get_tables` listing), with `(none)` standing
in when there are no tables (lines 471-475). -/
def notFoundMsg (table : String) (available : List String) : String :=
  "Table '" ++ table ++ "' not found. Available tables: " ++
    (if available.isEmpty then "(none)" else String.intercalate ", " available)

/-- The available user-table names used in error messages: the names in the
`get_tables` listing (sorted, internal tables excluded). -/
def availableNames (db : List Table) : List String :=
  (getTables db).map (fun t => t.name)

/-- The existence check `SELECT name FROM sqlite_master WHERE type='table'
AND name=?` (performed against the full catalog). -/
def tableExists (db : List Table) (name : String) : Bool :=
  db.any (fun t => t.name = name)

/-- A schema entry of `get_schema` (lines 531-537), restricted to the fields
the claims mention. -/
structure SchemaInfo where
  table : String
  columns : List Column
deriving DecidableEq

/-- Model of `SQLiteExplorer.get_schema` (lines 448-539). -/
def get_schema (db : List Table) (table : Option String) :
    Except String (List SchemaInfo) :=
  match table with
  | some t =>
    if tableExists db t then Except.ok [⟨t, schemaCols db t⟩]
    else Except.error (notFoundMsg t (availableNames db))
  | Option.none =>
    Except.ok ((getTables db).map (fun t => ⟨t.name, schemaCols db t.name⟩))

/-- The result of `browse` (lines 606-618), restricted to its pure fields. -/
structure BrowseResult where
  table : String
  headers : List String
  rows : List (List PyVal)
  total_rows : Nat
deriving DecidableEq

/-- Model of `SQLiteExplorer.browse` (lines 545-618) for the default
`where=None, order_by=None` path (the existence check, which is what the
claims concern, runs before either clause is used). -/
def browse (db : List Table) (table : String) (limit offset : Nat) :
    Except String BrowseResult :=
  if tableExists db table then
    let t := (db.find? (fun x => x.name = table)).getD ⟨table, [], 0, []⟩
    Except.ok ⟨table, t.columns.map (fun c => c.name), (t.rows.drop offset).take limit,
      t.rows.length⟩
  else Except.error (notFoundMsg table (availableNames db))

/-- Model of `SQLiteExplorer.export_table` (lines 660-727) for the
`query_sql=None` path, covering the `csv` and `md` formats (the `json`
branch serialises through `format_json` and is not needed by any claim;
file output is plumbing and out of scope). -/
def export_table (db : List Table) (table : String) (fmt : String) :
    Except String String :=
  if tableExists db table then
    let t := (db.find? (fun x => x.name = table)).getD ⟨table, [], 0, []⟩
    let headers := t.columns.map (fun c => c.name)
    if fmt = "md" then Except.ok (format_markdown headers t.rows).1
    else Except.ok (format_csv_str headers t.rows)
  else Except.error (notFoundMsg table (availableNames db))

/-! ## `SQLiteExplorer.get_stats` (lines 733-819) -/

/-- One column's statistics record (lines 786-816). -/
structure ColStat where
  column : String
  type : String
  total_rows : Nat
  non_null : Nat
  null_count : Nat
  null_pct : String
  distinct : Nat
  min : Option PyVal
  max : Option PyVal
  avg : Option ℚ
  sum : Option PyVal
deriving DecidableEq

/-- Python `round(q, 4)` (banker's rounding to four decimal places),
applied to the average at line 809. -/
def round4 (q : ℚ) : ℚ := (rndHE (q * 10000) : ℚ) / 10000

/-- The statistics computed for one column (lines 770-817).  `values` is the
column of cells (`PyVal.none` being SQL NULL); `agg` gives the engine's
`MIN/MAX/AVG/SUM` over a *non-empty* list of non-NULL values (SQL aggregates
ignore NULLs and return NULL over the empty set, which is hard-coded);
`aggFails` models the `except` branch at lines 811-815. -/
def statForColumn (colName colType : String) (values : List PyVal)
    (agg : List PyVal → Option PyVal × Option PyVal × Option ℚ × Option PyVal)
    (aggFails : Bool) : ColStat :=
  let total := values.length
  let nn := values.filter (fun v => v ≠ PyVal.none)
  let aggRes :=
    if aggFails then (Option.none, Option.none, Option.none, Option.none)
    else if nn.isEmpty then (Option.none, Option.none, Option.none, Option.none)
    else agg nn
  { column := colName
    type := colType
    total_rows := total
    non_null := nn.length
    null_count := total - nn.length
    null_pct :=
      if 0 < total then pyFmt1 (((total - nn.length : Nat) : ℚ) / (total : ℚ) * 100) ++ "%"
      else "N/A"
    distinct := nn.dedup.length
    min := aggRes.1
    max := aggRes.2.1
    avg := aggRes.2.2.1.map round4
    sum := aggRes.2.2.2 }

/-- Model of `SQLiteExplorer.get_stats` (lines 733-819): the existence check,
then one `ColStat` per `PRAGMA table_info` column. -/
def get_stats (db : List Table) (table : String)
    (agg : String → List PyVal → Option PyVal × Option PyVal × Option ℚ × Option PyVal)
    (aggFails : String → Bool) : Except String (List ColStat) :=
  if tableExists db table then
    let t := (db.find? (fun x => x.name = table)).getD ⟨table, [], 0, []⟩
    Except.ok (t.columns.mapIdx (fun i c =>
      statForColumn c.name (normType c.type)
        (t.rows.map (fun r => r.getD i PyVal.none)) (agg c.name) (aggFails c.name)))
  else Except.error (notFoundMsg table (availableNames db))

/-! ## `SQLiteExplorer.search` (lines 825-913) -/

/-- One search result (lines 902-906). -/
structure SearchMatch where
  table : String
  matched_columns : List String
  data : List (String × PyVal)
deriving DecidableEq

/-- Text-likeness of a declared column type (lines 864-872): the type (upper
cased) is empty or one of the known text types, or does not start with a
known non-text prefix (unknown types default to eligible). -/
def isTextLikeType (t : String) : Bool :=
  let u := asciiUpper t
  (["", "TEXT", "VARCHAR", "CHAR", "CLOB", "ANY", "STRING", "NVARCHAR"].contains u) ||
    !(["INT", "REAL", "FLOAT", "DOUBLE", "NUMERIC", "BLOB", "BOOLEAN"].any
      (fun p => strStarts u p))

/-- The text-like (search-eligible) column names of a table (lines 860-872). -/
def eligibleCols (cols : List Column) : List String :=
  (cols.filter (fun c => isTextLikeType c.type)).map (fun c => c.name)

/-- The cell of `row` under column name `n`
(`idx = all_col_names.index(col); val = row[idx]`, lines 893-894). -/
def cellAt (allNames : List String) (row : List PyVal) (n : String) : PyVal :=
  row.getD (allNames.findIdx (fun x => x = n)) PyVal.none

/-- The local per-row re-check of lines 892-896: a column matches when its
cell is not NULL and `term.lower() in str(val).lower()`. -/
def localCellMatch (term : String) (allNames : List String) (row : List PyVal)
    (c : String) : Bool :=
  match cellAt allNames row c with
  | PyVal.none => false
  | v => containsCI term (pyStr v)

/-- The engine-level OR scan of lines 878-884 (`"col" LIKE '%term%' OR ...`):
a row is fetched when some eligible column's cell matches the pattern.
SQL `LIKE` case-folding and text coercion are modelled like the Python side
(exact on ASCII text). -/
def engineRowMatch (term : String) (allNames : List String) (textCols : List String)
    (row : List PyVal) : Bool :=
  textCols.any (fun c =>
    match cellAt allNames row c with
    | PyVal.none => false
    | v => containsCI term (pyStr v))

/-- Construction of one match record (lines 890-906). -/
def mkMatch (term : String) (tblName : String) (cols : List Column)
    (row : List PyVal) : SearchMatch :=
  let allNames := cols.map (fun c => c.name)
  { table := tblName
    matched_columns := (eligibleCols cols).filter (localCellMatch term allNames row)
    data := allNames.mapIdx (fun i n => (n, row.getD i PyVal.none)) }

/-- All matches one table can contribute (no limit applied): nothing when the
table has no eligible column (line 874) or its scan faults (lines 910-911),
otherwise one match per engine-matching row in scan order. -/
def tableMatches (term : String) (fails : String → Bool) (t : Table) : List SearchMatch :=
  let textCols := eligibleCols t.columns
  if textCols.isEmpty || fails t.name then []
  else
    (t.rows.filter (engineRowMatch term (t.columns.map (fun c => c.name)) textCols)).map
      (mkMatch term t.name t.columns)

/-- Model of the collection loop of `search` (lines 850-913): `remaining`
starts at `limit`, each table's query is issued with `LIMIT remaining`, every
fetched row appends a match and decrements `remaining`, and the loop stops as
soon as `remaining` reaches zero. -/
def searchTables (term : String) (fails : String → Bool) :
    List Table → ℤ → List SearchMatch
  | [], _ => []
  | t :: rest, remaining =>
    if remaining ≤ 0 then []
    else
      let textCols := eligibleCols t.columns
      if textCols.isEmpty || fails t.name then searchTables term fails rest remaining
      else
        let ms := ((t.rows.filter
            (engineRowMatch term (t.columns.map (fun c => c.name)) textCols)).take
              remaining.toNat).map (mkMatch term t.name t.columns)
        ms ++ searchTables term fails rest (remaining - ms.length)

/-- The unlimited concatenation of every table's matches, in table order —
the stream `searchTables` truncates. -/
def fullMatches (term : String) (fails : String → Bool) : List Table → List SearchMatch
  | [] => []
  | t :: rest => tableMatches term fails t ++ fullMatches term fails rest

/-- Model of `SQLiteExplorer.search` (lines 825-913): the explicit table list
(or the catalog listing when none is given) scanned under the global limit. -/
def search (db : List Table) (term : String) (tables : Option (List Table))
    (fails : String → Bool) (limit : ℤ) : List SearchMatch :=
  searchTables term fails (tables.getD (getTables db)) limit

/-! ## `SQLiteExplorer.get_size` (lines 919-995) -/

/-- One entry of the per-table size report (lines 966-980). -/
structure SizeEntry where
  table : String
  rows : ℤ
  columns : Nat
  estimated_data_size : ℤ
  estimated_data_size_display : String
deriving DecidableEq

/-- The `while size >= 1024 and i < len(units)-1` loop of `_format_size`
(lines 1128-1133), fuel-bounded (it runs at most four times). -/
def fsLoop : Nat → ℚ → Nat → ℚ × Nat
  | 0, size, i => (size, i)
  | fuel + 1, size, i =>
    if 1024 ≤ size ∧ i < 4 then fsLoop fuel (size / 1024) (i + 1) else (size, i)

/-- Model of `_format_size` (lines 1114-1136): `N/A` for negative sizes,
`0 B` for zero, otherwise the size scaled into `B/KB/MB/GB/TB` with one
decimal place (whole bytes below 1 KiB). -/
def formatSize (n : ℤ) : String :=
  if n < 0 then "N/A"
  else if n = 0 then "0 B"
  else
    let p := fsLoop 4 (n : ℚ) 0
    if p.2 = 0 then toString n ++ " B"
    else pyFmt1 p.1 ++ " " ++ (["B", "KB", "MB", "GB", "TB"].getD p.2 "")

/-- The sum of the stringified lengths of the sampled row's non-NULL values
(lines 958-961); the sample row is given pre-stringified (each cell the
`str(v)` of a non-NULL value, or `Option.none` for SQL NULL). -/
def rowByteEstimate (sample : List (Option String)) : Nat :=
  (sample.map (fun v =>
    match v with
    | some s => s.length
    | Option.none => 0)).sum

/-- The per-table branch of `get_size` (lines 945-980).  `sample` is the
outcome of the sampling queries: `Except.error ()` when the engine raises
(lines 973-980), otherwise the optional first row.  A size is estimated only
when a sample row exists and the reported row count is positive; otherwise
the estimate is `0` and its display is `_format_size(0) = "0 B"`.  The
failure branch displays `N/A`. -/
def sizeEntry (name : String) (row_count : ℤ) (column_count : Nat)
    (sample : Except Unit (Option (List (Option String)))) : SizeEntry :=
  match sample with
  | Except.error _ => ⟨name, row_count, column_count, 0, "N/A"⟩
  | Except.ok s =>
    let est : ℤ :=
      match s with
      | some r => if 0 < row_count then (rowByteEstimate r : ℤ) * row_count else 0
      | Option.none => 0
    ⟨name, row_count, column_count, est, formatSize est⟩

/-- The `tables` component of the `get_size` report (lines 943-980): one
entry is appended for every listed table, on both the success and the
failure path. -/
def sizeTableEntries
    (inputs : List (String × ℤ × Nat × Except Unit (Option (List (Option String))))) :
    List SizeEntry :=
  inputs.map (fun x => sizeEntry x.1 x.2.1 x.2.2.1 x.2.2.2)

/-! ## Auxiliary definitions used by the theorems -/

/-- The length of the stringified cell of column `i` in one row (`0` when the
row has no cell there). -/
def cellLenAt (i : Nat) (row : List String) : Nat :=
  match row.get? i with
  | some v => v.length
  | Option.none => 0

/-- The maximum stringified cell length in column `i` over all rows. -/
def colCellMax (rows : List (List String)) (i : Nat) : Nat :=
  rows.foldl (fun acc row => max acc (cellLenAt i row)) 0

/-- Databases for the C3 witness: equal schemas, different row counts. -/
def dbWitnessA : List Table := [⟨"t", [⟨"x", "INT"⟩], 5, []⟩]

/-- Second database for the C3 witness. -/
def dbWitnessB : List Table := [⟨"t", [⟨"x", "INT"⟩], 3, []⟩]

/-- Concrete table for the C6 witness. -/
def usersTable : Table := ⟨"users", [⟨"name", "TEXT"⟩], 1, [[PyVal.str "Alice"]]⟩


/-! ## Shared helper lemmas -/

/-- Filtering a list by non-membership in itself yields nothing. -/
lemma filter_not_contains_self (l : List String) :
    l.filter (fun n => !(l.contains n)) = [] := by
  rw [List.filter_eq_nil_iff]
  intro a ha
  simp [ha]

/-- Rounding an exact integer is the identity. -/
lemma rndHE_intCast (z : ℤ) : rndHE ((z : ℤ) : ℚ) = z := by
  unfold rndHE
  have hb : ∀ q : ℚ, q.floor = ⌊q⌋ := fun q => rfl
  have hf : ((z : ℚ)).floor = z := by rw [hb]; exact Int.floor_intCast z
  rw [hf]
  rw [if_pos (by push_cast; linarith)]

/-- `"%.1f" % 100.0` renders as `100.0`. -/
lemma pyFmt1_hundred : pyFmt1 100 = "100.0" := by
  have h : ((100 : ℚ) * 10) = (((1000 : ℤ) : ℤ) : ℚ) := by norm_num
  unfold pyFmt1
  rw [h, rndHE_intCast]
  decide

/-! ## C10 — `format_markdown` row padding (frame behaviour) -/

/-- C10 (counterexample): `format_markdown` does *not* mutate the
caller-supplied row lists.  With headers `["a","b"]` and the single
one-element row `[1]`, the caller's rows after the call are unchanged, and in
particular the row still has fewer elements than there are headers —
refuting the claim that the input row list is padded in place. -/
theorem format_markdown_no_caller_mutation :
    (format_markdown ["a", "b"] [[PyVal.int 1]]).2 = [[PyVal.int 1]] ∧
    ¬ (∀ r ∈ (format_markdown ["a", "b"] [[PyVal.int 1]]).2, 2 ≤ r.length) := by
  constructor
  · rfl
  · decide

/-- C10 (amended): the padding loop of `format_markdown` (lines 227-231)
operates on the freshly stringified copies (`str_rows`), padding each copy
with empty cells up to the header count; the caller-supplied `rows` argument
is returned to the caller unchanged. -/
theorem format_markdown_pads_copies (headers : List String) (rows : List (List PyVal)) :
    (format_markdown headers rows).2 = rows ∧
    (∀ r : List String, headers.length ≤ (mdPad headers.length r).length) := by
  constructor
  · by_cases h : headers.isEmpty <;> simp [format_markdown, h]
  · intro r
    simp [mdPad]
    omega

/-! ## C1 — per-table size estimates in `get_size` -/

/-- C1 (counterexample): a table with zero rows whose sample query succeeds
(so the engine returns no sample row) reports an estimated size of `0` but
displays `"0 B"` — the `_format_size(0)` rendering — not the `"N/A"` marker;
`"N/A"` appears only on the exception path (lines 973-980). -/
theorem size_entry_zero_rows_display :
    (sizeEntry "t" 0 1 (Except.ok Option.none)).estimated_data_size = 0 ∧
    (sizeEntry "t" 0 1 (Except.ok Option.none)).estimated_data_size_display = "0 B" ∧
    ¬ ((sizeEntry "t" 0 1 (Except.ok Option.none)).estimated_data_size_display = "N/A") := by
  refine ⟨rfl, rfl, ?_⟩
  decide

/-- C1 (amended): in the `get_size` table report, a table whose sampling
query raises reports size `0` with the `"N/A"` display; a table with no
sample row, or a non-positive reported row count, reports size `0` with the
`"0 B"` display; otherwise the estimate is the sum of the stringified
lengths of the sampled row's non-NULL values multiplied by the row count,
displayed through `_format_size`.  Every listed table yields exactly one
entry — none is omitted. -/
theorem size_entry_report (name : String) (rc : ℤ) (cc : Nat) :
    (sizeEntry name rc cc (Except.error ()) =
      ⟨name, rc, cc, 0, "N/A"⟩) ∧
    (sizeEntry name rc cc (Except.ok Option.none) = ⟨name, rc, cc, 0, "0 B"⟩) ∧
    (∀ r, rc ≤ 0 →
      sizeEntry name rc cc (Except.ok (some r)) = ⟨name, rc, cc, 0, "0 B"⟩) ∧
    (∀ r, 0 < rc →
      sizeEntry name rc cc (Except.ok (some r)) =
        ⟨name, rc, cc, (rowByteEstimate r : ℤ) * rc,
          formatSize ((rowByteEstimate r : ℤ) * rc)⟩) ∧
    (∀ inputs, (sizeTableEntries inputs).length = inputs.length ∧
      (sizeTableEntries inputs).map (fun x => x.table) = inputs.map (fun x => x.1)) := by
  refine ⟨rfl, ?_, ?_, ?_, ?_⟩
  · have h0 : formatSize 0 = "0 B" := by decide
    simp [sizeEntry, h0]
  · intro r hrc
    have h0 : formatSize 0 = "0 B" := by decide
    simp [sizeEntry, if_neg (by omega : ¬ (0 : ℤ) < rc), h0]
  · intro r hrc
    simp [sizeEntry, if_pos hrc]
  · intro inputs
    constructor
    · simp [sizeTableEntries]
    · induction inputs with
      | nil => rfl
      | cons x xs ih =>
        simp only [sizeTableEntries, List.map_cons] at ih ⊢
        rw [ih]
        obtain ⟨n, rc2, cc2, s⟩ := x
        cases s with
        | error e => rfl
        | ok v => rfl

/-- C1 (witness): the amended theorem applied at concrete inputs. -/
theorem size_entry_report_witness :
    ((0 : ℤ) ≤ 0 ∧
      sizeEntry "t" 0 2 (Except.ok (some [some "ab"])) = ⟨"t", 0, 2, 0, "0 B"⟩) ∧
    (0 < (3 : ℤ) ∧
      sizeEntry "u" 3 1 (Except.ok (some [some "ab", Option.none])) =
        ⟨"u", 3, 1, (rowByteEstimate [some "ab", Option.none] : ℤ) * 3,
          formatSize ((rowByteEstimate [some "ab", Option.none] : ℤ) * 3)⟩) :=
  ⟨⟨le_refl 0, (size_entry_report "t" 0 2).2.2.1 [some "ab"] (by norm_num)⟩,
   ⟨by norm_num, (size_entry_report "u" 3 1).2.2.2.1 [some "ab", Option.none] (by norm_num)⟩⟩

/-! ## C5 — statistics of an all-NULL column -/

/-- C5: on a column whose cells are all NULL, `get_stats` reports
`non_null = 0`, `distinct = 0`, absent `min`/`max`/`avg`/`sum`, and a null
percentage of `"100.0%"` when the table has rows and `"N/A"` when it is
empty — for every aggregate engine behaviour (success or failure). -/
theorem stats_all_null_column (colName colType : String) (values : List PyVal)
    (agg : List PyVal → Option PyVal × Option PyVal × Option ℚ × Option PyVal)
    (aggFails : Bool) (h : ∀ v ∈ values, v = PyVal.none) :
    (statForColumn colName colType values agg aggFails).non_null = 0 ∧
    (statForColumn colName colType values agg aggFails).distinct = 0 ∧
    (statForColumn colName colType values agg aggFails).min = Option.none ∧
    (statForColumn colName colType values agg aggFails).max = Option.none ∧
    (statForColumn colName colType values agg aggFails).avg = Option.none ∧
    (statForColumn colName colType values agg aggFails).sum = Option.none ∧
    (statForColumn colName colType values agg aggFails).null_pct =
      (if 0 < values.length then "100.0%" else "N/A") := by
  have hnn : values.filter (fun v => v ≠ PyVal.none) = [] := by
    rw [List.filter_eq_nil_iff]
    intro a ha
    simp [h a ha]
  have hpct : (statForColumn colName colType values agg aggFails).null_pct =
      (if 0 < values.length then "100.0%" else "N/A") := by
    simp only [statForColumn, hnn, List.length_nil, Nat.sub_zero]
    by_cases ht : 0 < values.length
    · rw [if_pos ht, if_pos ht]
      have hq : ((values.length : Nat) : ℚ) / ((values.length : Nat) : ℚ) * 100 = 100 := by
        rw [div_self (by positivity), one_mul]
      rw [hq, pyFmt1_hundred]
      rfl
    · rw [if_neg ht, if_neg ht]
  cases aggFails with
  | true =>
    exact ⟨by simp [statForColumn, hnn] <;> first | exact h | rw [if_pos h], by simp [statForColumn, hnn] <;> first | exact h | rw [if_pos h],
      by simp [statForColumn, hnn] <;> first | exact h | rw [if_pos h], by simp [statForColumn, hnn] <;> first | exact h | rw [if_pos h],
      by simp [statForColumn, hnn] <;> first | exact h | rw [if_pos h], by simp [statForColumn, hnn] <;> first | exact h | rw [if_pos h], hpct⟩
  | false =>
    exact ⟨by simp [statForColumn, hnn] <;> first | exact h | rw [if_pos h], by simp [statForColumn, hnn] <;> first | exact h | rw [if_pos h],
      by simp [statForColumn, hnn] <;> first | exact h | rw [if_pos h], by simp [statForColumn, hnn] <;> first | exact h | rw [if_pos h],
      by simp [statForColumn, hnn] <;> first | exact h | rw [if_pos h], by simp [statForColumn, hnn] <;> first | exact h | rw [if_pos h], hpct⟩

/-- C5 (witness): the theorem applied to a two-row all-NULL column. -/
theorem stats_all_null_column_witness :
    (statForColumn "c" "TEXT" [PyVal.none, PyVal.none]
      (fun _ => (Option.none, Option.none, Option.none, Option.none)) false).non_null = 0 ∧
    (statForColumn "c" "TEXT" [PyVal.none, PyVal.none]
      (fun _ => (Option.none, Option.none, Option.none, Option.none)) false).distinct = 0 ∧
    (statForColumn "c" "TEXT" [PyVal.none, PyVal.none]
      (fun _ => (Option.none, Option.none, Option.none, Option.none)) false).min = Option.none ∧
    (statForColumn "c" "TEXT" [PyVal.none, PyVal.none]
      (fun _ => (Option.none, Option.none, Option.none, Option.none)) false).max = Option.none ∧
    (statForColumn "c" "TEXT" [PyVal.none, PyVal.none]
      (fun _ => (Option.none, Option.none, Option.none, Option.none)) false).avg = Option.none ∧
    (statForColumn "c" "TEXT" [PyVal.none, PyVal.none]
      (fun _ => (Option.none, Option.none, Option.none, Option.none)) false).sum = Option.none ∧
    (statForColumn "c" "TEXT" [PyVal.none, PyVal.none]
      (fun _ => (Option.none, Option.none, Option.none, Option.none)) false).null_pct =
      (if 0 < ([PyVal.none, PyVal.none] : List PyVal).length then "100.0%" else "N/A") :=
  stats_all_null_column "c" "TEXT" [PyVal.none, PyVal.none]
    (fun _ => (Option.none, Option.none, Option.none, Option.none)) false (by decide)

/-! ## C2 — diffing a database against itself -/

/-- A self set-difference of names is empty. -/
lemma sortedDiffNames_self (l : List String) : sortedDiffNames l l = [] := by
  unfold sortedDiffNames
  rw [filter_not_contains_self]
  rfl

/-- Comparing identical schema data produces no difference entry. -/
lemma diffTable_self (tbl : String) (cols : List Column) (rc : ℤ) :
    diffTable tbl cols cols rc rc = Option.none := by
  have h2 : ∀ l : List String, l.filterMap (fun c =>
      if colTypeAt cols c ≠ colTypeAt cols c then
        some (TypeDiff.mk c (colTypeAt cols c) (colTypeAt cols c))
      else Option.none) = [] := by
    intro l
    rw [List.filterMap_eq_nil_iff]
    intro a _
    simp
  unfold diffTable
  dsimp only
  rw [sortedDiffNames_self, h2]
  simp

/-- C2: diffing a database against itself yields `identical_schema = true`
with `tables_only_in_a`, `tables_only_in_b` and `table_differences` all
empty. -/
theorem diff_self_identical (db : List Table) :
    (diff db db).identical_schema = true ∧
    (diff db db).tables_only_in_a = [] ∧
    (diff db db).tables_only_in_b = [] ∧
    (diff db db).table_differences = [] := by
  have honly : sortedDiffNames ((getTables db).map (fun t => t.name))
      ((getTables db).map (fun t => t.name)) = [] := sortedDiffNames_self _
  have htd : (sortedInterNames ((getTables db).map (fun t => t.name))
      ((getTables db).map (fun t => t.name))).filterMap (fun tbl =>
        diffTable tbl (schemaCols db tbl) (schemaCols db tbl)
          (tblRowCount db tbl) (tblRowCount db tbl)) = [] := by
    rw [List.filterMap_eq_nil_iff]
    intro a _
    exact diffTable_self _ _ _
  refine ⟨?_, ?_, ?_, ?_⟩ <;> simp [diff, honly, htd]

/-! ## C3 — difference entries are non-trivial; identical iff all empty -/

/-- C3: every `TableDiff` entry emitted by `diff` names a common table and
records at least one of: a column only in A, a column only in B, a declared
type mismatch, or a nonzero row delta; and `identical_schema` holds exactly
when both only-in lists and the difference list are empty. -/
theorem diff_entries_nontrivial (a b : List Table) :
    (∀ td ∈ (diff a b).table_differences,
      td.columns_only_in_a ≠ [] ∨ td.columns_only_in_b ≠ [] ∨
        td.type_differences ≠ [] ∨ td.row_diff ≠ 0) ∧
    ((diff a b).identical_schema = true ↔
      ((diff a b).tables_only_in_a = [] ∧ (diff a b).tables_only_in_b = [] ∧
        (diff a b).table_differences = [])) := by
  constructor
  · intro td htd
    have htd2 : td ∈ (sortedInterNames ((getTables a).map (fun t => t.name))
        ((getTables b).map (fun t => t.name))).filterMap (fun tbl =>
          diffTable tbl (schemaCols a tbl) (schemaCols b tbl)
            (tblRowCount a tbl) (tblRowCount b tbl)) := htd
    obtain ⟨tbl, _, heq⟩ := List.mem_filterMap.mp htd2
    unfold diffTable at heq
    dsimp only at heq
    split at heq
    case isTrue hg =>
      obtain rfl := Option.some.inj heq
      simp only [Bool.or_eq_true, Bool.not_eq_true', List.isEmpty_eq_false,
        decide_eq_true_eq] at hg
      rcases hg with ((h1 | h2) | h3) | h4
      · exact Or.inl h1
      · exact Or.inr (Or.inl h2)
      · exact Or.inr (Or.inr (Or.inl h3))
      · exact Or.inr (Or.inr (Or.inr h4))
    case isFalse => cases heq
  · simp [diff, Bool.and_eq_true, List.isEmpty_iff, and_assoc]

/-- C3 (witness): the theorem applied to a concrete emitted entry (a pure
row-count difference). -/
theorem diff_entries_nontrivial_witness :
    (TableDiff.mk "t" [] [] [] 5 3 2) ∈ (diff dbWitnessA dbWitnessB).table_differences ∧
    ((TableDiff.mk "t" [] [] [] 5 3 2).columns_only_in_a ≠ [] ∨
      (TableDiff.mk "t" [] [] [] 5 3 2).columns_only_in_b ≠ [] ∨
      (TableDiff.mk "t" [] [] [] 5 3 2).type_differences ≠ [] ∨
      (TableDiff.mk "t" [] [] [] 5 3 2).row_diff ≠ 0) :=
  ⟨by decide, (diff_entries_nontrivial dbWitnessA dbWitnessB).1 _ (by decide)⟩

/-! ## C4 — the global search limit -/

/-- The collection loop returns exactly the length-capped prefix of the
per-table match stream. -/
lemma searchTables_eq_take (term : String) (fails : String → Bool) :
    ∀ (tables : List Table) (limit : ℤ),
      searchTables term fails tables limit =
        (fullMatches term fails tables).take limit.toNat := by
  intro tables
  induction tables with
  | nil => intro limit; simp [searchTables, fullMatches]
  | cons t rest ih =>
    intro limit
    by_cases hl : limit ≤ 0
    · have h0 : limit.toNat = 0 := by omega
      simp [searchTables, hl, h0]
    · have hl2 : 0 < limit := by omega
      unfold searchTables fullMatches tableMatches
      rw [if_neg hl]
      by_cases hskip : ((eligibleCols t.columns).isEmpty || fails t.name) = true
      · rw [if_pos hskip, if_pos hskip, ih]
        simp
      · rw [if_neg hskip, if_neg hskip]
        dsimp only
        rw [List.map_take, List.take_append_eq_append_take, ih]
        congr 2
        simp only [List.length_take, List.length_map]
        omega

/-- C4 (counterexample): with a negative requested limit the search returns
an empty match list, which has *more* elements than the (negative) limit —
so "at most `limit` matches" fails for that limit value. -/
theorem search_negative_limit :
    ¬ (((searchTables "Alice" (fun _ => false)
      [⟨"users", [⟨"name", "TEXT"⟩], 1, [[PyVal.str "Alice"]]⟩] (-1)).length : ℤ) ≤ -1) := by
  decide

/-- C4 (amended): for every term, table list, failure behaviour and limit,
`search` returns at most `max(limit, 0)` matches in total across all tables
(`Int.toNat` is exactly that clamping), and the result is precisely the
length-capped prefix of the per-table match stream — collection stops the
moment the cap is reached, mid-table included. -/
theorem search_limit_cap (term : String) (fails : String → Bool)
    (tables : List Table) (limit : ℤ) :
    (searchTables term fails tables limit).length ≤ limit.toNat ∧
    searchTables term fails tables limit =
      (fullMatches term fails tables).take limit.toNat := by
  refine ⟨?_, searchTables_eq_take term fails tables limit⟩
  rw [searchTables_eq_take]
  exact List.length_take_le _ _

/-! ## C6 — matched columns come from the local per-row re-check -/

/-- Membership in the unlimited match stream comes from some listed table. -/
lemma mem_fullMatches (term : String) (fails : String → Bool) (m : SearchMatch) :
    ∀ (tables : List Table), m ∈ fullMatches term fails tables →
      ∃ t ∈ tables, m ∈ tableMatches term fails t := by
  intro tables
  induction tables with
  | nil => intro h; cases h
  | cons t rest ih =>
    intro h
    rw [fullMatches, List.mem_append] at h
    rcases h with h | h
    · exact ⟨t, List.mem_cons_self t rest, h⟩
    · obtain ⟨u, hu, hmu⟩ := ih h
      exact ⟨u, List.mem_cons_of_mem t hu, hmu⟩

/-- C6: every match returned by `search` originates from a row of one of the
searched tables, its `matched_columns` is exactly the filter of that table's
eligible columns through the local per-row re-check (`term.lower() in
str(val).lower()` on the non-NULL cells), and no NULL cell ever appears in
`matched_columns`. -/
theorem search_matched_columns_local (term : String) (fails : String → Bool)
    (tables : List Table) (limit : ℤ) (m : SearchMatch)
    (hm : m ∈ searchTables term fails tables limit) :
    ∃ t ∈ tables, ∃ row ∈ t.rows,
      m.table = t.name ∧
      m.matched_columns =
        (eligibleCols t.columns).filter
          (localCellMatch term (t.columns.map (fun c => c.name)) row) ∧
      ∀ c ∈ m.matched_columns,
        cellAt (t.columns.map (fun c => c.name)) row c ≠ PyVal.none := by
  rw [searchTables_eq_take] at hm
  have hm2 := List.take_subset _ _ hm
  obtain ⟨t, ht, hmt⟩ := mem_fullMatches term fails m tables hm2
  refine ⟨t, ht, ?_⟩
  unfold tableMatches at hmt
  by_cases hskip : ((eligibleCols t.columns).isEmpty || fails t.name) = true
  · rw [if_pos hskip] at hmt
    cases hmt
  · rw [if_neg hskip] at hmt
    obtain ⟨row, hrow, hmk⟩ := List.mem_map.mp hmt
    refine ⟨row, List.filter_subset' _ hrow, ?_⟩
    obtain rfl := hmk.symm
    refine ⟨rfl, rfl, ?_⟩
    intro c hc
    have hcm := List.of_mem_filter hc
    intro hnull
    rw [localCellMatch, hnull] at hcm
    cases hcm

/-- C6 (witness): the theorem applied to the match produced by searching a
one-row table for `"lic"`. -/
theorem search_matched_columns_witness :
    ∃ t ∈ [usersTable], ∃ row ∈ t.rows,
      (SearchMatch.mk "users" ["name"] [("name", PyVal.str "Alice")]).table = t.name ∧
      (SearchMatch.mk "users" ["name"] [("name", PyVal.str "Alice")]).matched_columns =
        (eligibleCols t.columns).filter
          (localCellMatch "lic" (t.columns.map (fun c => c.name)) row) ∧
      ∀ c ∈ (SearchMatch.mk "users" ["name"] [("name", PyVal.str "Alice")]).matched_columns,
        cellAt (t.columns.map (fun c => c.name)) row c ≠ PyVal.none :=
  search_matched_columns_local "lic" (fun _ => false) [usersTable] 10
    (SearchMatch.mk "users" ["name"] [("name", PyVal.str "Alice")]) (by decide)

/-! ## C7 — text-table column widths and truncation -/

/-- The width loop preserves the number of columns. -/
lemma bumpWidths_length (ws : List Nat) (row : List String) :
    (bumpWidths ws row).length = ws.length := by
  induction ws generalizing row with
  | nil => simp [bumpWidths]
  | cons w ws ih =>
    cases row with
    | nil => simp [bumpWidths]
    | cons v vs => simp [bumpWidths, ih]

/-- One width-loop pass takes the binary maximum at each position. -/
lemma bumpWidths_getD (ws : List Nat) (row : List String) (i : Nat) (h : i < ws.length) :
    (bumpWidths ws row).getD i 0 = max (ws.getD i 0) (cellLenAt i row) := by
  induction ws generalizing row i with
  | nil => simp at h
  | cons w ws ih =>
    cases row with
    | nil =>
      simp [bumpWidths, cellLenAt]
    | cons v vs =>
      cases i with
      | zero => simp [bumpWidths, cellLenAt]
      | succ j =>
        simp only [bumpWidths, List.getD_cons_succ]
        rw [ih vs j (by simpa using h)]
        rfl

/-- Folding the accumulator out of `colCellMax`. -/
lemma colCellMax_foldl (i : Nat) :
    ∀ (rows : List (List String)) (a : Nat),
      rows.foldl (fun acc row => max acc (cellLenAt i row)) a = max a (colCellMax rows i) := by
  intro rows
  induction rows with
  | nil => intro a; simp [colCellMax]
  | cons r rows ih =>
    intro a
    simp only [colCellMax, List.foldl_cons] at ih ⊢
    rw [ih (max a (cellLenAt i r)), ih (max 0 (cellLenAt i r))]
    omega

/-- `colCellMax` on a cons. -/
lemma colCellMax_cons (r : List String) (rows : List (List String)) (i : Nat) :
    colCellMax (r :: rows) i = max (cellLenAt i r) (colCellMax rows i) := by
  simp only [colCellMax, List.foldl_cons]
  rw [colCellMax_foldl i rows (max 0 (cellLenAt i r))]
  simp only [colCellMax]
  omega

/-- The raw width of every header column is the maximum of the header length
and every cell length in that column. -/
lemma rawColWidths_getD (headers : List String) (rows : List (List String)) (i : Nat)
    (h : i < headers.length) :
    (rawColWidths headers rows).getD i 0 =
      max ((headers.map (fun s => s.length)).getD i 0) (colCellMax rows i) := by
  rw [rawColWidths]
  have hgen : ∀ (rs : List (List String)) (ws : List Nat), i < ws.length →
      (rs.foldl bumpWidths ws).getD i 0 = max (ws.getD i 0) (colCellMax rs i) := by
    intro rs
    induction rs with
    | nil => intro ws hw; simp [colCellMax]
    | cons r rs ih =>
      intro ws hw
      simp only [List.foldl_cons]
      rw [ih (bumpWidths ws r) (by rw [bumpWidths_length]; exact hw)]
      rw [bumpWidths_getD ws r i hw, colCellMax_cons]
      omega
  exact hgen rows (headers.map (fun s => s.length)) (by simpa using h)

/-- Width list lengths. -/
lemma rawColWidths_length (headers : List String) (rows : List (List String)) :
    (rawColWidths headers rows).length = headers.length := by
  rw [rawColWidths]
  have hgen : ∀ (rs : List (List String)) (ws : List Nat),
      (rs.foldl bumpWidths ws).length = ws.length := by
    intro rs
    induction rs with
    | nil => intro ws; rfl
    | cons r rs ih => intro ws; rw [List.foldl_cons, ih, bumpWidths_length]
  rw [hgen]
  simp

/-- `getD` through a `min` map. -/
lemma getD_map_min (l : List Nat) (mw i : Nat) (h : i < l.length) :
    (l.map (fun w => min w mw)).getD i 0 = min (l.getD i 0) mw := by
  induction l generalizing i with
  | nil => simp at h
  | cons x xs ih =>
    cases i with
    | zero => simp
    | succ j =>
      simp only [List.map_cons, List.getD_cons_succ]
      exact ih j (by simpa using h)

/-- `getD` through a `length` map. -/
lemma getD_map_length (l : List String) (i : Nat) (h : i < l.length) :
    (l.map (fun s => s.length)).getD i 0 = (l.getD i "").length := by
  induction l generalizing i with
  | nil => simp at h
  | cons x xs ih =>
    cases i with
    | zero => simp
    | succ j =>
      simp only [List.map_cons, List.getD_cons_succ]
      exact ih j (by simpa using h)

/-- C7: in `format_table`, each column's final width is the maximum of the
header length and every stringified cell length in that column, capped at
`max_width`; a value longer than its column width is truncated to `width-3`
characters plus `"..."`, giving a string of exactly `width` characters; and
concretely a 100-character value under `max_width = 20` gets column width 20
and renders as a cell of exactly 20 characters ending in `"..."`. -/
theorem format_table_widths_and_truncation :
    (∀ (headers : List String) (rows : List (List String)) (max_width i : Nat),
      i < headers.length →
      (capWidths max_width (rawColWidths headers rows)).getD i 0 =
        min (max ((headers.getD i "").length) (colCellMax rows i)) max_width) ∧
    (∀ (s : String) (w : Nat), 3 ≤ w → w < s.length →
      pyTruncate s w = (⟨s.toList.take (w - 3)⟩ : String) ++ "..." ∧
      (pyTruncate s w).length = w) ∧
    (capWidths 20 (rawColWidths ["v"]
        [[stringifyCell (PyVal.str (⟨List.replicate 100 'x'⟩ : String))]]) = [20] ∧
      (renderCell [stringifyCell (PyVal.str (⟨List.replicate 100 'x'⟩ : String))] 0 20).length
        = 20 ∧
      (renderCell [stringifyCell (PyVal.str (⟨List.replicate 100 'x'⟩ : String))] 0 20).toList.drop 17
        = ['.', '.', '.']) := by
  refine ⟨?_, ?_, by decide, by decide, by decide⟩
  · intro headers rows max_width i h
    rw [capWidths, getD_map_min _ _ _ (by rw [rawColWidths_length]; exact h),
      rawColWidths_getD headers rows i h, getD_map_length headers i h]
  · intro s w h3 hw
    have hneg : ¬ s.length ≤ w := by omega
    have hk : ((w : ℤ) - 3).toNat = w - 3 := by omega
    constructor
    · rw [pyTruncate, if_neg hneg, pySliceTo, if_pos (by omega : (0 : ℤ) ≤ (w : ℤ) - 3), hk]
    · rw [pyTruncate, if_neg hneg, pySliceTo, if_pos (by omega : (0 : ℤ) ≤ (w : ℤ) - 3), hk]
      rw [String.length_append]
      have h1 : ((⟨s.toList.take (w - 3)⟩ : String)).length = min (w - 3) s.toList.length :=
        List.length_take _ _
      have hlen : s.toList.length = s.length := rfl
      have h2 : ("..." : String).length = 3 := rfl
      omega

/-- C7 (witness): the width formula and the truncation rule applied at
concrete inputs. -/
theorem format_table_widths_and_truncation_witness :
    (0 < 1 ∧
      (capWidths 3 (rawColWidths ["ab"] [["abcd"], ["x", "ignored"]])).getD 0 0 =
        min (max (("ab" : String).length) (colCellMax [["abcd"], ["x", "ignored"]] 0)) 3) ∧
    (3 ≤ 4 ∧ 4 < ("abcdef" : String).length ∧
      pyTruncate "abcdef" 4 = (⟨("abcdef" : String).toList.take 1⟩ : String) ++ "..." ∧
      (pyTruncate "abcdef" 4).length = 4) :=
  ⟨⟨by decide,
    format_table_widths_and_truncation.1 ["ab"] [["abcd"], ["x", "ignored"]] 3 0 (by decide)⟩,
   ⟨by decide, by decide,
    (format_table_widths_and_truncation.2.1 "abcdef" 4 (by decide) (by decide)).1,
    (format_table_widths_and_truncation.2.1 "abcdef" 4 (by decide) (by decide)).2⟩⟩

/-! ## C8 — float cells render with at most six significant digits -/

/-- `getD` below the length returns an element of the list. -/
lemma getD_mem_of_lt {α : Type} (l : List α) (i : Nat) (d : α) (h : i < l.length) :
    l.getD i d ∈ l := by
  induction l generalizing i with
  | nil => simp at h
  | cons x xs ih =>
    cases i with
    | zero => simp
    | succ j =>
      rw [List.getD_cons_succ]
      exact List.mem_cons_of_mem x (ih j (by simpa using h))

/-- `digChar` produces a decimal digit character. -/
lemma digChar_mem (n : Nat) : digChar n ∈ digChars := by
  rw [digChar]
  exact getD_mem_of_lt _ _ _ (by simp [digChars]; omega)

/-- `digits6` always yields exactly six characters. -/
lemma digits6_length (m : ℤ) : (digits6 m).length = 6 := by
  simp [digits6]

/-- Every character of `digits6` is a decimal digit. -/
lemma digits6_isDig (m : ℤ) : ∀ c ∈ digits6 m, isDig c = true := by
  intro c hc
  simp only [digits6, List.mem_map] at hc
  obtain ⟨j, _, rfl⟩ := hc
  have hd : digChar (m.toNat / 10 ^ (5 - j) % 10) ∈ digChars := digChar_mem _
  simp only [isDig]
  simpa using hd

/-- A decimal digit is not the exponent marker. -/
lemma isDig_ne_e (c : Char) (h : isDig c = true) : ¬ (c = 'e') := by
  intro he
  rw [he] at h
  exact absurd h (by decide)

/-- Digit characters pass the pre-exponent scan of `sigDigitCount`. -/
lemma isDig_takeWhile_pred (c : Char) (h : isDig c = true) : (!(c = 'e')) = true := by
  simp [isDig_ne_e c h]

/-- `takeWhile` keeps a list all of whose elements satisfy the predicate. -/
lemma takeWhile_all {α : Type} {p : α → Bool} :
    ∀ l : List α, (∀ c ∈ l, p c = true) → l.takeWhile p = l := by
  intro l
  induction l with
  | nil => intro _; rfl
  | cons x xs ih =>
    intro h
    rw [List.takeWhile_cons, h x (List.mem_cons_self x xs)]
    simp [ih (fun c hc => h c (List.mem_cons_of_mem x hc))]

/-- `takeWhile` stops at the first failing element. -/
lemma takeWhile_append_stop {α : Type} {p : α → Bool} :
    ∀ (l1 : List α) (x : α) (l2 : List α), (∀ c ∈ l1, p c = true) → p x = false →
      (l1 ++ x :: l2).takeWhile p = l1 := by
  intro l1
  induction l1 with
  | nil =>
    intro x l2 _ hx
    simp [List.takeWhile_cons, hx]
  | cons y ys ih =>
    intro x l2 h hx
    rw [List.cons_append, List.takeWhile_cons, h y (List.mem_cons_self y ys)]
    simp [ih x l2 (fun c hc => h c (List.mem_cons_of_mem y hc)) hx]

/-- Dropping a satisfied prefix never lengthens a list. -/
lemma length_dropWhile {α : Type} (p : α → Bool) :
    ∀ l : List α, (l.dropWhile p).length ≤ l.length := by
  intro l
  induction l with
  | nil => simp
  | cons x xs ih =>
    rw [List.dropWhile_cons]
    by_cases hx : p x = true
    · rw [if_pos hx]
      exact Nat.le_trans ih (by simp)
    · rw [if_neg hx]

/-- `dropWhile` runs through a satisfied replicate prefix. -/
lemma dropWhile_replicate_append {α : Type} (p : α → Bool) (a : α) (ha : p a = true) :
    ∀ (k : Nat) (l : List α), ((List.replicate k a) ++ l).dropWhile p = l.dropWhile p := by
  intro k
  induction k with
  | zero => intro l; rfl
  | succ j ih =>
    intro l
    rw [List.replicate_succ, List.cons_append, List.dropWhile_cons, if_pos ha, ih]

/-- Stripping trailing zeros never lengthens a list. -/
lemma stripT_length (l : List Char) : (stripT l).length ≤ l.length := by
  rw [stripT, List.length_reverse]
  calc (l.reverse.dropWhile (fun c => c = '0')).length ≤ l.reverse.length :=
        length_dropWhile _ _
    _ = l.length := List.length_reverse l

/-- Stripping trailing zeros keeps a sublist. -/
lemma stripT_mem (l : List Char) (c : Char) (hc : c ∈ stripT l) : c ∈ l := by
  rw [stripT, List.mem_reverse] at hc
  have hm := (List.dropWhile_sublist (l := l.reverse) (p := fun c => c = '0')).mem hc
  simpa using hm

/-- `sigDigitCount` computed on the underlying character list. -/
lemma sigDigitCount_mk (l : List Char) :
    sigDigitCount (⟨l⟩ : String) =
      (((l.takeWhile (fun c => !(c = 'e'))).filter isDig).dropWhile
        (fun c => c = '0')).length := rfl

/-- Significant-digit bound for the assembled `%.6g` output: whatever the
sign, mantissa and exponent, the rendering carries at most six significant
digits. -/
lemma renderG6_sig_le6 (sign : List Char) (m e : ℤ) (hs : sign = [] ∨ sign = ['-']) :
    sigDigitCount (⟨renderG6 sign m e⟩ : String) ≤ 6 := by
  have hds6 : (digits6 m).length = 6 := digits6_length m
  have hdig : ∀ c ∈ digits6 m, isDig c = true := digits6_isDig m
  have hsignP : ∀ c ∈ sign, (!(c = 'e')) = true := by
    rcases hs with rfl | rfl
    · intro c hc; cases hc
    · intro c hc
      rcases List.mem_singleton.mp hc with rfl
      decide
  have hsignD : sign.filter isDig = [] := by
    rcases hs with rfl | rfl
    · rfl
    · decide
  rw [renderG6]
  dsimp only
  split
  · -- exponent branch
    have htail : ∀ c ∈ stripT ((digits6 m).drop 1), isDig c = true := fun c hc =>
      hdig c (List.mem_of_mem_drop (stripT_mem _ c hc))
    have htake : ∀ c ∈ (digits6 m).take 1, isDig c = true := fun c hc =>
      hdig c (List.mem_of_mem_take hc)
    have hpre : ∀ c ∈ sign ++ (digits6 m).take 1 ++
        (if (stripT ((digits6 m).drop 1)).isEmpty then []
         else '.' :: stripT ((digits6 m).drop 1)), (!(c = 'e')) = true := by
      intro c hc
      simp only [List.mem_append] at hc
      rcases hc with (hc | hc) | hc
      · exact hsignP c hc
      · exact isDig_takeWhile_pred c (htake c hc)
      · split at hc
        · cases hc
        · rcases List.mem_cons.mp hc with rfl | hc
          · decide
          · exact isDig_takeWhile_pred c (htail c hc)
    rw [sigDigitCount_mk, takeWhile_append_stop _ _ _ hpre (by decide)]
    calc (((sign ++ (digits6 m).take 1 ++
          (if (stripT ((digits6 m).drop 1)).isEmpty then []
           else '.' :: stripT ((digits6 m).drop 1))).filter isDig).dropWhile
            (fun c => c = '0')).length
        ≤ ((sign ++ (digits6 m).take 1 ++
          (if (stripT ((digits6 m).drop 1)).isEmpty then []
           else '.' :: stripT ((digits6 m).drop 1))).filter isDig).length :=
          length_dropWhile _ _
      _ ≤ 6 := by
          rw [List.filter_append, List.filter_append, hsignD]
          rw [List.filter_eq_self.mpr htake]
          have h1 : ((digits6 m).take 1).length ≤ 1 := by
            rw [List.length_take]; omega
          have h2 : ((if (stripT ((digits6 m).drop 1)).isEmpty then []
              else '.' :: stripT ((digits6 m).drop 1)).filter isDig).length ≤ 5 := by
            split
            · simp
            · rw [List.filter_cons]
              have hdot : isDig '.' = false := by decide
              rw [hdot]
              simp only [Bool.false_eq_true, if_false]
              rw [List.filter_eq_self.mpr htail]
              calc (stripT ((digits6 m).drop 1)).length
                  ≤ ((digits6 m).drop 1).length := stripT_length _
                _ ≤ 5 := by rw [List.length_drop]; omega
          simp only [List.nil_append, List.length_append]
          omega
  · split
    · -- fixed-point branch, e >= 0
      have hip : ∀ c ∈ (digits6 m).take (e.toNat + 1), isDig c = true := fun c hc =>
        hdig c (List.mem_of_mem_take hc)
      have hfr : ∀ c ∈ stripT ((digits6 m).drop (e.toNat + 1)), isDig c = true := fun c hc =>
        hdig c (List.mem_of_mem_drop (stripT_mem _ c hc))
      have hall : ∀ c ∈ sign ++ (digits6 m).take (e.toNat + 1) ++
          (if (stripT ((digits6 m).drop (e.toNat + 1))).isEmpty then []
           else '.' :: stripT ((digits6 m).drop (e.toNat + 1))), (!(c = 'e')) = true := by
        intro c hc
        simp only [List.mem_append] at hc
        rcases hc with (hc | hc) | hc
        · exact hsignP c hc
        · exact isDig_takeWhile_pred c (hip c hc)
        · split at hc
          · cases hc
          · rcases List.mem_cons.mp hc with rfl | hc
            · decide
            · exact isDig_takeWhile_pred c (hfr c hc)
      rw [sigDigitCount_mk, takeWhile_all _ hall]
      calc (((sign ++ (digits6 m).take (e.toNat + 1) ++
            (if (stripT ((digits6 m).drop (e.toNat + 1))).isEmpty then []
             else '.' :: stripT ((digits6 m).drop (e.toNat + 1)))).filter isDig).dropWhile
              (fun c => c = '0')).length
          ≤ ((sign ++ (digits6 m).take (e.toNat + 1) ++
            (if (stripT ((digits6 m).drop (e.toNat + 1))).isEmpty then []
             else '.' :: stripT ((digits6 m).drop (e.toNat + 1)))).filter isDig).length :=
            length_dropWhile _ _
        _ ≤ 6 := by
            rw [List.filter_append, List.filter_append, hsignD]
            rw [List.filter_eq_self.mpr hip]
            have h1 : ((digits6 m).take (e.toNat + 1)).length = min (e.toNat + 1) 6 := by
              rw [List.length_take, hds6]
            have h2 : ((if (stripT ((digits6 m).drop (e.toNat + 1))).isEmpty then []
                else '.' :: stripT ((digits6 m).drop (e.toNat + 1))).filter isDig).length ≤
                  6 - (e.toNat + 1) := by
              split
              · simp
              · rw [List.filter_cons]
                have hdot : isDig '.' = false := by decide
                rw [hdot]
                simp only [Bool.false_eq_true, if_false]
                rw [List.filter_eq_self.mpr hfr]
                calc (stripT ((digits6 m).drop (e.toNat + 1))).length
                    ≤ ((digits6 m).drop (e.toNat + 1)).length := stripT_length _
                  _ = 6 - (e.toNat + 1) := by rw [List.length_drop, hds6]
            simp only [List.nil_append, List.length_append]
            omega
    · -- small-magnitude branch, -4 <= e < 0
      have hfr : ∀ c ∈ stripT (digits6 m), isDig c = true := fun c hc =>
        hdig c (stripT_mem _ c hc)
      have hall : ∀ c ∈ sign ++ '0' :: '.' ::
          (List.replicate (e.natAbs - 1) '0' ++ stripT (digits6 m)), (!(c = 'e')) = true := by
        intro c hc
        simp only [List.mem_append, List.mem_cons, List.mem_replicate] at hc
        rcases hc with hc | rfl | rfl | ⟨_, rfl⟩ | hc
        · exact hsignP c hc
        · decide
        · decide
        · decide
        · exact isDig_takeWhile_pred c (hfr c hc)
      rw [sigDigitCount_mk, takeWhile_all _ hall]
      rw [List.filter_append, hsignD, List.nil_append]
      rw [List.filter_cons, List.filter_cons]
      have h0 : isDig '0' = true := by decide
      have hdot : isDig '.' = false := by decide
      rw [h0, hdot]
      simp only [if_true, Bool.false_eq_true, if_false]
      rw [List.filter_append]
      have hrep : (List.replicate (e.natAbs - 1) '0').filter isDig =
          List.replicate (e.natAbs - 1) '0' := by
        apply List.filter_eq_self.mpr
        intro c hc
        rcases (List.mem_replicate.mp hc).2 with rfl
        decide
      rw [hrep, List.filter_eq_self.mpr hfr]
      rw [List.dropWhile_cons, if_pos (by decide)]
      rw [dropWhile_replicate_append _ '0' (by decide)]
      calc ((stripT (digits6 m)).dropWhile (fun c => c = '0')).length
          ≤ (stripT (digits6 m)).length := length_dropWhile _ _
        _ ≤ 6 := by
            calc (stripT (digits6 m)).length ≤ (digits6 m).length := stripT_length _
              _ = 6 := hds6

/-- C8: `format_table` stringifies every float cell through the `%.6g`
conversion, whose output never carries more than six significant digits; in
particular the float `3.14159265` renders in the text view as `"3.14159"`. -/
theorem float_cells_six_significant_digits :
    (∀ q : ℚ, stringifyCell (PyVal.float q) = pyG6 q ∧ sigDigitCount (pyG6 q) ≤ 6) ∧
    stringifyCell (PyVal.float ((314159265 : ℚ) / 100000000)) = "3.14159" := by
  constructor
  · intro q
    refine ⟨rfl, ?_⟩
    rw [pyG6]
    unfold pyG6chars
    by_cases hz : q.num = 0
    · rw [if_pos hz]
      decide
    · rw [if_neg hz]
      dsimp only
      apply renderG6_sig_le6
      by_cases hneg : q.num < 0
      · rw [if_pos hneg]
        right
        rfl
      · rw [if_neg hneg]
        left
        rfl
  · have hq : ((314159265 : ℚ) / 100000000) = mkRat 314159265 100000000 := by
      rw [Rat.mkRat_eq_div]
      norm_num
    rw [hq]
    decide

/-! ## C9 — not-found errors enumerate the sorted available tables -/

/-- Totality of the code-point order. -/
lemma charLe_total : ∀ a b : List Char, charLe a b = true ∨ charLe b a = true := by
  intro a
  induction a with
  | nil => intro b; left; rfl
  | cons x xs ih =>
    intro b
    cases b with
    | nil => right; rfl
    | cons y ys =>
      by_cases hxy : x.toNat < y.toNat
      · left
        rw [charLe, if_pos hxy]
      · by_cases hyx : y.toNat < x.toNat
        · right
          rw [charLe, if_pos hyx]
        · rcases ih ys with h | h
          · left
            rw [charLe, if_neg hxy, if_neg hyx]
            exact h
          · right
            rw [charLe, if_neg hyx, if_neg hxy]
            exact h

/-- Transitivity of the code-point order. -/
lemma charLe_trans : ∀ a b c : List Char,
    charLe a b = true → charLe b c = true → charLe a c = true := by
  intro a
  induction a with
  | nil => intro b c _ _; rfl
  | cons x xs ih =>
    intro b c h1 h2
    cases b with
    | nil => cases h1
    | cons y ys =>
      cases c with
      | nil => cases h2
      | cons z zs =>
        have hxy_le : x.toNat ≤ y.toNat := by
          by_contra hcon
          push_neg at hcon
          rw [charLe, if_neg (by omega), if_pos (by omega)] at h1
          cases h1
        have hyz_le : y.toNat ≤ z.toNat := by
          by_contra hcon
          push_neg at hcon
          rw [charLe, if_neg (by omega), if_pos (by omega)] at h2
          cases h2
        rw [charLe]
        by_cases hxz : x.toNat < z.toNat
        · rw [if_pos hxz]
        · rw [if_neg hxz, if_neg (by omega)]
          rw [charLe, if_neg (by omega), if_neg (by omega)] at h1
          rw [charLe, if_neg (by omega), if_neg (by omega)] at h2
          exact ih ys zs h1 h2

instance : IsTotal String nameLe := ⟨fun a b => charLe_total a.toList b.toList⟩

instance : IsTrans String nameLe :=
  ⟨fun a b c h1 h2 => charLe_trans a.toList b.toList c.toList h1 h2⟩

instance : IsTotal Table tblLe := ⟨fun a b => charLe_total a.name.toList b.name.toList⟩

instance : IsTrans Table tblLe :=
  ⟨fun a b c h1 h2 => charLe_trans a.name.toList b.name.toList c.name.toList h1 h2⟩

/-- The `get_tables` listing is sorted by table name. -/
lemma getTables_sorted (db : List Table) : List.Sorted tblLe (getTables db) :=
  List.sorted_insertionSort tblLe _

/-- The available-table names quoted in error messages are sorted. -/
lemma availableNames_sorted (db : List Table) : List.Sorted nameLe (availableNames db) := by
  rw [availableNames]
  exact List.pairwise_map.mpr (getTables_sorted db)

/-- C9: looking up a table name that does not exist in the catalog makes
`get_schema`, `browse`, `export_table` and `get_stats` fail with the
not-found error; its message enumerates the available user-table names
sorted by name and renders the empty case as the literal `"(none)"`. -/
theorem table_not_found_errors (db : List Table) (name : String)
    (h : ∀ t ∈ db, t.name ≠ name) :
    get_schema db (some name) = Except.error (notFoundMsg name (availableNames db)) ∧
    browse db name 50 0 = Except.error (notFoundMsg name (availableNames db)) ∧
    export_table db name "csv" = Except.error (notFoundMsg name (availableNames db)) ∧
    get_stats db name (fun _ _ => (Option.none, Option.none, Option.none, Option.none))
      (fun _ => false) = Except.error (notFoundMsg name (availableNames db)) ∧
    List.Sorted nameLe (availableNames db) ∧
    (availableNames db = [] →
      notFoundMsg name (availableNames db) =
        "Table '" ++ name ++ "' not found. Available tables: (none)") ∧
    (availableNames db ≠ [] →
      notFoundMsg name (availableNames db) =
        "Table '" ++ name ++ "' not found. Available tables: " ++
          String.intercalate ", " (availableNames db)) := by
  have hex : tableExists db name = false := by
    rw [tableExists, List.any_eq_false]
    intro t ht
    simp [h t ht]
  refine ⟨?_, ?_, ?_, ?_, availableNames_sorted db, ?_, ?_⟩
  · rw [get_schema, hex]
    rfl
  · rw [browse, hex]
    rfl
  · rw [export_table, hex]
    rfl
  · rw [get_stats, hex]
    rfl
  · intro he
    rw [notFoundMsg, he]
    have hx : (if ([] : List String).isEmpty then "(none)"
        else String.intercalate ", " ([] : List String)) = "(none)" := rfl
    rw [hx, String.append_assoc]
    congr 1
  · intro he
    rw [notFoundMsg, if_neg (by simpa [List.isEmpty_iff] using he)]

/-- C9 (witness): the theorem applied to a one-table database and a missing
name. -/
theorem table_not_found_errors_witness :
    get_schema [(⟨"users", [⟨"id", "INTEGER"⟩], 0, []⟩ : Table)] (some "zzz") =
      Except.error (notFoundMsg "zzz"
        (availableNames [(⟨"users", [⟨"id", "INTEGER"⟩], 0, []⟩ : Table)])) ∧
    browse [(⟨"users", [⟨"id", "INTEGER"⟩], 0, []⟩ : Table)] "zzz" 50 0 =
      Except.error (notFoundMsg "zzz"
        (availableNames [(⟨"users", [⟨"id", "INTEGER"⟩], 0, []⟩ : Table)])) ∧
    export_table [(⟨"users", [⟨"id", "INTEGER"⟩], 0, []⟩ : Table)] "zzz" "csv" =
      Except.error (notFoundMsg "zzz"
        (availableNames [(⟨"users", [⟨"id", "INTEGER"⟩], 0, []⟩ : Table)])) ∧
    get_stats [(⟨"users", [⟨"id", "INTEGER"⟩], 0, []⟩ : Table)] "zzz"
      (fun _ _ => (Option.none, Option.none, Option.none, Option.none)) (fun _ => false) =
      Except.error (notFoundMsg "zzz"
        (availableNames [(⟨"users", [⟨"id", "INTEGER"⟩], 0, []⟩ : Table)])) ∧
    List.Sorted nameLe (availableNames [(⟨"users", [⟨"id", "INTEGER"⟩], 0, []⟩ : Table)]) ∧
    (availableNames [(⟨"users", [⟨"id", "INTEGER"⟩], 0, []⟩ : Table)] = [] →
      notFoundMsg "zzz" (availableNames [(⟨"users", [⟨"id", "INTEGER"⟩], 0, []⟩ : Table)]) =
        "Table '" ++ "zzz" ++ "' not found. Available tables: (none)") ∧
    (availableNames [(⟨"users", [⟨"id", "INTEGER"⟩], 0, []⟩ : Table)] ≠ [] →
      notFoundMsg "zzz" (availableNames [(⟨"users", [⟨"id", "INTEGER"⟩], 0, []⟩ : Table)]) =
        "Table '" ++ "zzz" ++ "' not found. Available tables: " ++
          String.intercalate ", "
            (availableNames [(⟨"users", [⟨"id", "INTEGER"⟩], 0, []⟩ : Table)])) :=
  table_not_found_errors [(⟨"users", [⟨"id", "INTEGER"⟩], 0, []⟩ : Table)] "zzz" (by decide)
